import Mathlib

/-!
Shallow embedding of `cubes/expression/compiler.py` from the `cubes`
repository: the default AST node model, the overridable compilation
strategy (`ExpressionCompiler` and its hook methods), and the semantic
action dispatcher (`_ExpressionSemantics`: `NUMBER`, `STRING`, `_default`,
`atom`, `reference`).

Conventions of the embedding:
* Python values flowing through the dispatcher are modelled by the
  inductive `Val`: token strings, list-shaped reduction payloads, the five
  default AST node classes, and opaque non-`ASTNode` fragments produced by
  custom strategy overrides (`Val.custom`).
* Python floating point values are modelled opaquely by the numeric token
  they were parsed from (`Lit.float tok`); only the int-versus-float
  branching of the source is modelled, not IEEE arithmetic.
* Raised Python exceptions are modelled by `Except PyErr`; `PyErr` has one
  constructor per kind of exception the dispatcher can raise (the
  `TypeError`/`IndexError` of indexing a non-sequence or a too-short list,
  and the two explicit `raise Exception(...)` sites of the dispatcher).
* Sequence indexing and slicing are modelled on list-shaped values
  (`Val.vlist`); grammar reduction payloads are lists.
-/

namespace Cubes

/-- Literal values handed to `compile_literal`: Python `int`, `float`
(kept opaquely as its source token) or `str`. -/
inductive Lit where
  | int (n : Int)
  | float (tok : String)
  | str (s : String)
deriving DecidableEq, Repr

/-- A Python value as it flows through the semantic dispatcher: a token
string, a list-shaped reduction payload, an opaque fragment produced by a
custom (non-`ASTNode`) strategy override, or one of the five default AST
node classes of `compiler.py` (`Literal`, `VariableReference`,
`FunctionCall`, `UnaryOperator`, `BinaryOperator`). -/
inductive Val where
  | vstr (s : String)
  | vlist (xs : List Val)
  | custom (id : Nat)
  | literal (value : Lit)
  | varRef (reference : List String)
  | funcall (reference : Val) (args : Val)
  | unaryOp (operator : Val) (operand : Val)
  | binaryOp (operator : Val) (left : Val) (right : Val)

/-- `isinstance(v, ASTNode)`: true exactly for the five default AST node
classes of `compiler.py`. -/
def Val.isNode : Val → Bool
  | .literal _ => true
  | .varRef _ => true
  | .funcall _ _ => true
  | .unaryOp _ _ => true
  | .binaryOp _ _ _ => true
  | _ => false

/-- The `reference` attribute of a `VariableReference` node. -/
def Val.referenceAttr : Val → Option (List String)
  | .varRef r => some r
  | _ => none

/-- Python truthiness for the values of the embedding: empty strings and
empty lists are falsy, every other value (objects included) is truthy. -/
def pyTruthy : Val → Bool
  | .vstr s => !s.isEmpty
  | .vlist xs => !xs.isEmpty
  | _ => true

/-- The Python exceptions the dispatcher can raise: indexing errors on
payloads and the two explicit `raise Exception(...)` sites
(`"Unhandled AST"` in `atom`, `"Unknown args"` in `_default`). -/
inductive PyErr where
  | typeError
  | indexError
  | unhandledAST
  | unknownArgs (args : List String)
deriving DecidableEq, Repr

/-- `v[i]` for the values of the embedding: defined on list-shaped values,
an `IndexError` past the end, a `TypeError` on non-sequences. -/
def pyIndex : Val → Nat → Except PyErr Val
  | .vlist xs, i =>
    match xs[i]? with
    | some v => .ok v
    | none => .error .indexError
  | _, _ => .error .typeError

/-- View a value as the list it holds (used where the source slices
`ast[1][0::2]`, which requires a sequence). -/
def asList : Val → Except PyErr (List Val)
  | .vlist xs => .ok xs
  | _ => .error .typeError

/-- The slice `xs[0::2]`: elements at even positions. -/
def sliceEven : List α → List α
  | [] => []
  | [x] => [x]
  | x :: _ :: rest => x :: sliceEven rest

/-- The slice `xs[1::2]`: elements at odd positions. -/
def sliceOdd : List α → List α
  | [] => []
  | [_] => []
  | _ :: y :: rest => y :: sliceOdd rest

/-- Python whitespace accepted around an integer token by `int(...)`. -/
def isPySpace (c : Char) : Bool :=
  c = ' ' ∨ c = '\t' ∨ c = '\n' ∨ c = '\r' ∨ c = '\x0b' ∨ c = '\x0c'

/-- Decimal value of a digit string. -/
def digitsVal (cs : List Char) : Nat :=
  cs.foldl (fun a c => 10 * a + (c.toNat - 48)) 0

/-- Python `int(...)` on a trimmed character list: an optional sign
followed by at least one decimal digit; anything else raises
`ValueError` (modelled as `none`). -/
def pyIntChars : List Char → Option Int
  | [] => none
  | '-' :: rest =>
    if !rest.isEmpty ∧ rest.all Char.isDigit then
      some (-(digitsVal rest : Int))
    else none
  | '+' :: rest =>
    if !rest.isEmpty ∧ rest.all Char.isDigit then
      some ((digitsVal rest : Int))
    else none
  | cs =>
    if cs.all Char.isDigit then some ((digitsVal cs : Int)) else none

/-- Python `int(token)` on a string token: strips surrounding whitespace,
then parses an optionally signed run of decimal digits; `none` models the
`ValueError` that sends `NUMBER` to the float branch. -/
def pyInt (s : String) : Option Int :=
  pyIntChars (((s.toList.dropWhile isPySpace).reverse.dropWhile isPySpace).reverse)

/-- The compilation strategy: the overridable hook methods of
`ExpressionCompiler` (`compile_literal`, `compile_variable`,
`compile_operator`, `compile_unary`, `compile_function`, `finalize`),
over an opaque caller context of type `C`. -/
structure ExpressionCompiler (C : Type) where
  compile_literal : C → Lit → Val
  compile_variable : C → List String → Val
  compile_operator : C → Val → Val → Val → Val
  compile_unary : C → Val → Val → Val
  compile_function : C → Val → Val → Val
  finalize : C → Val → Val

/-- The default strategy: each hook builds the corresponding default AST
node and `finalize` is the identity, exactly as the base-class bodies in
`compiler.py`. -/
def defaultCompiler (C : Type) : ExpressionCompiler C where
  compile_literal := fun _ l => .literal l
  compile_variable := fun _ r => .varRef r
  compile_operator := fun _ op left right => .binaryOp op left right
  compile_unary := fun _ op operand => .unaryOp op operand
  compile_function := fun _ f args => .funcall f args
  finalize := fun _ obj => obj

variable {C : Type}

/-- `_ExpressionSemantics.NUMBER`: try `int(ast)`, fall back to
`float(ast)` on `ValueError`, then hand the resolved value to
`compile_literal`. -/
def NUMBER (comp : ExpressionCompiler C) (ctx : C) (ast : String) : Val :=
  match pyInt ast with
  | some n => comp.compile_literal ctx (.int n)
  | none => comp.compile_literal ctx (.float ast)

/-- `_ExpressionSemantics.STRING`: hand the string content to
`compile_literal`. -/
def STRING (comp : ExpressionCompiler C) (ctx : C) (ast : String) : Val :=
  comp.compile_literal ctx (.str ast)

/-- `_ExpressionSemantics._default`, the generic fallback: return the
payload unchanged when no tag is given or when the payload is already an
`ASTNode`; otherwise probe `ast[1]` — if falsy return `ast[0]`; for tag
`"binary"` fold `compile_operator` left to right over
`zip(ast[1][0::2], ast[1][1::2])`; for tag `"unary"` call `compile_unary`
on `ast[0]` and `ast[1]`; any other tag raises `Exception("Unknown args")`. -/
def _default (comp : ExpressionCompiler C) (ctx : C) (ast : Val)
    (args : List String) : Except PyErr Val :=
  match args with
  | [] => .ok ast
  | tag :: _ =>
    if ast.isNode then .ok ast
    else
      match pyIndex ast 1 with
      | .error e => .error e
      | .ok a1 =>
        if !pyTruthy a1 then pyIndex ast 0
        else if tag = "binary" then
          match pyIndex ast 0 with
          | .error e => .error e
          | .ok left =>
            match asList a1 with
            | .error e => .error e
            | .ok xs =>
              .ok (((sliceEven xs).zip (sliceOdd xs)).foldl
                (fun l p => comp.compile_operator ctx p.1 l p.2) left)
        else if tag = "unary" then
          match pyIndex ast 0 with
          | .error e => .error e
          | .ok op =>
            match pyIndex ast 1 with
            | .error e => .error e
            | .ok operand => .ok (comp.compile_unary ctx op operand)
        else .error (.unknownArgs args)

/-- The payload of an `atom` reduction: the four optional fields the
source probes (`ast.value`, `ast.ref`, `ast.get("args")`, `ast.expr`);
`none` models an absent field / Python `None`. -/
structure AtomAST where
  value : Option Val
  ref : Option Val
  args : Option Val
  expr : Option Val

/-- `_ExpressionSemantics.atom`: a literal payload passes through; a
reference payload with truthy attached args goes to `compile_function`,
otherwise the reference passes through as-is; a sub-expression payload
passes through; any other shape raises `Exception("Unhandled AST")`. -/
def atom (comp : ExpressionCompiler C) (ctx : C) (ast : AtomAST) :
    Except PyErr Val :=
  match ast.value with
  | some v => .ok v
  | none =>
    match ast.ref with
    | some r =>
      match ast.args with
      | some a => if pyTruthy a then .ok (comp.compile_function ctx r a) else .ok r
      | none => .ok r
    | none =>
      match ast.expr with
      | some e => .ok e
      | none => .error .unhandledAST

/-- `_ExpressionSemantics.reference`: wrap the raw ordered list of
identifier segments into a `VariableReference` directly (no strategy hook
is consulted). -/
def reference (ast : List String) : Val :=
  .varRef ast

mutual

/-- Canonical string rendering (`__str__`) of the embedding's values: a
`VariableReference` renders its segments joined with `"."`, a
`FunctionCall` renders `name(arg1, arg2, ...)`, a `UnaryOperator` renders
`(op operand)`, a `BinaryOperator` renders `(left op right)`, a `Literal`
renders its value's natural string form (a float by its source token).
Raw payload values, which have no `__str__` override in the source, are
given an unambiguous placeholder rendering. -/
def pyStr : Val → String
  | .vstr s => s
  | .vlist xs => "[" ++ String.intercalate ", " (pyStrList xs) ++ "]"
  | .custom id => "<custom " ++ toString id ++ ">"
  | .literal (.int n) => toString n
  | .literal (.float tok) => tok
  | .literal (.str s) => s
  | .varRef r => String.intercalate "." r
  | .funcall r a => pyStr r ++ "(" ++ pyFunArgs a ++ ")"
  | .unaryOp op operand => "(" ++ pyStr op ++ " " ++ pyStr operand ++ ")"
  | .binaryOp op l r => "(" ++ pyStr l ++ " " ++ pyStr op ++ " " ++ pyStr r ++ ")"

/-- `", ".join(str(a) for a in args)` over a list-shaped `args` value. -/
def pyFunArgs : Val → String
  | .vlist xs => String.intercalate ", " (pyStrList xs)
  | v => pyStr v

/-- `str` applied elementwise. -/
def pyStrList : List Val → List String
  | [] => []
  | v :: vs => pyStr v :: pyStrList vs

end

/-- Interleave a list of `(operator, right)` pairs back into the flat
`[op1, right1, op2, right2, ...]` payload shape of the grammar. -/
def interleave : List (Val × Val) → List Val
  | [] => []
  | (o, r) :: ps => o :: r :: interleave ps

mutual

/-- Modelled from the spec: the Grammar Parser (the repository's
`cubes/expression/grammar` module, which is not part of the sources here)
drives bottom-up rule reductions into the semantics handler. A value of
`RTree` is the reduction tree of one parse: each constructor is one
reduction shape the parser can present, holding the sub-reductions whose
compiled results form its payload — a numeric or string token, a
reference's raw segment list, the three atom payload shapes (with an
optional argument list for calls), a generic `"binary"` chain
`[left, [op, right, ...]]`, a generic `"unary"` pair `[op, operand]`, an
untagged single-child pass-through, and a tagged reduction whose payload
is a single already-reduced sub-result. -/
inductive RTree where
  | number (tok : String)
  | stringTok (tok : String)
  | refSegs (segs : List String)
  | atomValue (v : RTree)
  | atomRefBare (r : RTree)
  | atomCall (r : RTree) (args : RList)
  | atomExpr (e : RTree)
  | binaryChain (left : RTree) (chain : RChain)
  | unaryApp (op : String) (operand : RTree)
  | pass (child : RTree)
  | tagged (child : RTree) (tag : String)

/-- A list of sibling sub-reductions (a function call's argument list). -/
inductive RList where
  | nil
  | cons (hd : RTree) (tl : RList)

/-- The trailing `[op, right, op, right, ...]` part of a binary chain. -/
inductive RChain where
  | nil
  | cons (op : String) (right : RTree) (tl : RChain)

end

mutual

/-- Run the semantic action dispatcher bottom-up over a reduction tree:
each `RTree` constructor invokes the matching `_ExpressionSemantics`
method on the compiled results of its sub-reductions, exactly as the
Grammar Parser does during `parser.parse(text, ..., semantics=...)`. -/
def run (comp : ExpressionCompiler C) (ctx : C) : RTree → Except PyErr Val
  | .number tok => .ok (NUMBER comp ctx tok)
  | .stringTok tok => .ok (STRING comp ctx tok)
  | .refSegs segs => .ok (reference segs)
  | .atomValue v =>
    match run comp ctx v with
    | .error e => .error e
    | .ok v => atom comp ctx ⟨some v, none, none, none⟩
  | .atomRefBare r =>
    match run comp ctx r with
    | .error e => .error e
    | .ok r => atom comp ctx ⟨none, some r, none, none⟩
  | .atomCall r args =>
    match run comp ctx r with
    | .error e => .error e
    | .ok r =>
      match runList comp ctx args with
      | .error e => .error e
      | .ok as => atom comp ctx ⟨none, some r, some (.vlist as), none⟩
  | .atomExpr e =>
    match run comp ctx e with
    | .error e => .error e
    | .ok v => atom comp ctx ⟨none, none, none, some v⟩
  | .binaryChain left chain =>
    match run comp ctx left with
    | .error e => .error e
    | .ok l =>
      match runChain comp ctx chain with
      | .error e => .error e
      | .ok ch => _default comp ctx (.vlist [l, .vlist (interleave ch)]) ["binary"]
  | .unaryApp op operand =>
    match run comp ctx operand with
    | .error e => .error e
    | .ok v => _default comp ctx (.vlist [.vstr op, v]) ["unary"]
  | .pass child =>
    match run comp ctx child with
    | .error e => .error e
    | .ok v => _default comp ctx v []
  | .tagged child tag =>
    match run comp ctx child with
    | .error e => .error e
    | .ok v => _default comp ctx v [tag]

/-- Compile each argument sub-reduction in call-site order. -/
def runList (comp : ExpressionCompiler C) (ctx : C) : RList → Except PyErr (List Val)
  | .nil => .ok []
  | .cons h t =>
    match run comp ctx h with
    | .error e => .error e
    | .ok v =>
      match runList comp ctx t with
      | .error e => .error e
      | .ok vs => .ok (v :: vs)

/-- Compile each `(op, right)` pair of a binary chain in encounter order. -/
def runChain (comp : ExpressionCompiler C) (ctx : C) : RChain → Except PyErr (List (Val × Val))
  | .nil => .ok []
  | .cons op r t =>
    match run comp ctx r with
    | .error e => .error e
    | .ok v =>
      match runChain comp ctx t with
      | .error e => .error e
      | .ok vs => .ok ((.vstr op, v) :: vs)

end

/-- `ExpressionCompiler.compile(text, context)`: resolve the effective
context (the passed one, or the instance's default when `None`), build an
`_ExpressionSemantics` bound to the strategy and that context, let the
Grammar Parser drive it over the parsed text, and return the parser's
result directly. Note: the source returns `ast` as-is — `finalize` is
never invoked (`compiler.py` line 163). -/
def compile (comp : ExpressionCompiler C) (selfContext : C) (context : Option C)
    (text : RTree) : Except PyErr Val :=
  let ctx := match context with
    | none => selfContext
    | some c => c
  run comp ctx text

/-- A strategy identical to the default one except that `finalize` wraps
the compiled root in a one-element list — the kind of subclass override
that the `finalize` docstring promises to honour. -/
def wrapFinalize : ExpressionCompiler Unit :=
  { defaultCompiler Unit with finalize := fun _ v => .vlist [v] }

/-- A custom strategy whose `compile_literal` produces a non-`ASTNode`
fragment, as a subclass with its own compiled representation would. -/
def customLit : ExpressionCompiler Unit :=
  { defaultCompiler Unit with compile_literal := fun _ _ => .custom 7 }

theorem sliceEven_interleave (ps : List (Val × Val)) :
    sliceEven (interleave ps) = ps.map Prod.fst := by
  induction ps with
  | nil => rfl
  | cons p ps ih => cases p with
    | mk o r => simp [interleave, sliceEven, ih]

theorem sliceOdd_interleave (ps : List (Val × Val)) :
    sliceOdd (interleave ps) = ps.map Prod.snd := by
  induction ps with
  | nil => rfl
  | cons p ps ih => cases p with
    | mk o r => simp [interleave, sliceOdd, ih]

theorem zip_slices_interleave (ps : List (Val × Val)) :
    (sliceEven (interleave ps)).zip (sliceOdd (interleave ps)) = ps := by
  induction ps with
  | nil => rfl
  | cons p ps ih => cases p with
    | mk o r => simp [interleave, sliceEven, sliceOdd, ih]

theorem pyIndex_error_kind (v : Val) (i : Nat) (e : PyErr)
    (h : pyIndex v i = .error e) : e = .typeError ∨ e = .indexError := by
  cases v with
  | vlist xs =>
    cases hg : xs[i]? with
    | some w => simp [pyIndex, hg] at h
    | none =>
      simp [pyIndex, hg] at h
      exact Or.inr h.symm
  | vstr s => simp [pyIndex] at h; exact Or.inl h.symm
  | custom k => simp [pyIndex] at h; exact Or.inl h.symm
  | literal l => simp [pyIndex] at h; exact Or.inl h.symm
  | varRef r => simp [pyIndex] at h; exact Or.inl h.symm
  | funcall a b => simp [pyIndex] at h; exact Or.inl h.symm
  | unaryOp a b => simp [pyIndex] at h; exact Or.inl h.symm
  | binaryOp a b c => simp [pyIndex] at h; exact Or.inl h.symm

theorem asList_error_kind (v : Val) (e : PyErr)
    (h : asList v = .error e) : e = .typeError := by
  cases v with
  | vlist xs => simp [asList] at h
  | vstr s => simp [asList] at h; exact h.symm
  | custom k => simp [asList] at h; exact h.symm
  | literal l => simp [asList] at h; exact h.symm
  | varRef r => simp [asList] at h; exact h.symm
  | funcall a b => simp [asList] at h; exact h.symm
  | unaryOp a b => simp [asList] at h; exact h.symm
  | binaryOp a b c => simp [asList] at h; exact h.symm

/-- C1: `compile` is claimed to return `finalize(effective_context, root)`
for the single compiled root. The source instead returns the parser
result directly and never invokes `finalize` (`compiler.py` line 163),
contradicting `compile`'s own docstring ("returns a finalized object") and
`finalize`'s ("Return final object as a result of expression
compilation"). At the concrete input `compile("1")` with a strategy whose
`finalize` wraps its argument, the returned value is the bare root, not
the wrapped one. -/
theorem C1_finalize_not_applied :
    compile wrapFinalize () none (.number "1") = .ok (.literal (.int 1))
    ∧ wrapFinalize.finalize () (.literal (.int 1)) = .vlist [.literal (.int 1)]
    ∧ compile wrapFinalize () none (.number "1")
      ≠ .ok (wrapFinalize.finalize () (.literal (.int 1))) := by
  have hpy : pyInt "1" = some 1 := by decide
  have h1 : compile wrapFinalize () none (.number "1") = .ok (.literal (.int 1)) := by
    simp [compile, run, NUMBER, hpy, wrapFinalize, defaultCompiler]
  refine ⟨h1, rfl, ?_⟩
  rw [h1]
  simp [wrapFinalize, defaultCompiler]

/-- C2: the generic binary-chain fallback folds strictly left to right,
calling `compile_operator` once per `(op, right)` pair in encounter order
with the accumulated result as left operand; for `a op1 b op2 c op3 d`
this yields the left-leaning tree
`compile_operator(op3, compile_operator(op2, compile_operator(op1, a, b), c), d)`. -/
theorem C2_binary_chain_left_fold (C : Type) (comp : ExpressionCompiler C) (ctx : C)
    (left : Val) (pairs : List (Val × Val)) (h : pairs ≠ []) :
    _default comp ctx (.vlist [left, .vlist (interleave pairs)]) ["binary"]
      = .ok (pairs.foldl (fun l p => comp.compile_operator ctx p.1 l p.2) left)
    ∧ ∀ a b c d o1 o2 o3 : Val,
      _default comp ctx (.vlist [a, .vlist [o1, b, o2, c, o3, d]]) ["binary"]
        = .ok (comp.compile_operator ctx o3
            (comp.compile_operator ctx o2 (comp.compile_operator ctx o1 a b) c) d) := by
  constructor
  · have htr : pyTruthy (.vlist (interleave pairs)) = true := by
      cases pairs with
      | nil => exact absurd rfl h
      | cons p ps => cases p with
        | mk o r => simp [interleave, pyTruthy]
    have hstep : _default comp ctx (.vlist [left, .vlist (interleave pairs)]) ["binary"]
        = .ok (((sliceEven (interleave pairs)).zip (sliceOdd (interleave pairs))).foldl
            (fun l p => comp.compile_operator ctx p.1 l p.2) left) := by
      simp [_default, Val.isNode, pyIndex, asList, htr]
    rw [hstep, zip_slices_interleave]
  · intro a b c d o1 o2 o3
    rfl

/-- C2 witness: the chain `a + b * c` (payload
`[a, ["+", b, "*", c]]`) folds to `((a + b) * c)` under the default
strategy. -/
theorem C2_binary_chain_left_fold_witness :
    _default (defaultCompiler Unit) ()
      (.vlist [.vstr "a", .vlist (interleave [(.vstr "+", .vstr "b"), (.vstr "*", .vstr "c")])])
      ["binary"]
      = .ok (.binaryOp (.vstr "*") (.binaryOp (.vstr "+") (.vstr "a") (.vstr "b")) (.vstr "c")) :=
  (C2_binary_chain_left_fold Unit (defaultCompiler Unit) () (.vstr "a")
    [(.vstr "+", .vstr "b"), (.vstr "*", .vstr "c")] (by simp)).1

/-- C3 counterexample: an atom reduction carrying a reference payload with
an attached but empty argument list (`ast.get("args")` is falsy in the
source) is passed through as the bare reference; `compile_function` is not
consulted, although the claim says an attached argument list always routes
to `compile_function`. -/
theorem C3_cex_empty_args_bypass :
    atom (defaultCompiler Unit) () ⟨none, some (.varRef ["f"]), some (.vlist []), none⟩
      = .ok (.varRef ["f"])
    ∧ (.ok ((defaultCompiler Unit).compile_function () (.varRef ["f"]) (.vlist []))
        : Except PyErr Val) ≠ .ok (.varRef ["f"]) := by
  refine ⟨rfl, ?_⟩
  simp [defaultCompiler]

/-- C3 (amended): an atom reduction with a reference payload calls
`compile_function(context, reference, args)` exactly when the attached
argument list is non-empty; with no attached argument list, or an attached
empty one, the already-compiled `VariableReference` passes through as-is —
for every strategy, so in particular without invoking `compile_variable`. -/
theorem C3_atom_reference_dispatch (C : Type) (comp : ExpressionCompiler C) (ctx : C)
    (r : Val) (xs : List Val) :
    (xs ≠ [] → atom comp ctx ⟨none, some r, some (.vlist xs), none⟩
      = .ok (comp.compile_function ctx r (.vlist xs)))
    ∧ atom comp ctx ⟨none, some r, none, none⟩ = .ok r
    ∧ atom comp ctx ⟨none, some r, some (.vlist []), none⟩ = .ok r := by
  refine ⟨?_, rfl, rfl⟩
  intro h
  cases xs with
  | nil => exact absurd rfl h
  | cons y ys => rfl

/-- C3 witness: `f(1)` routes to `compile_function`, producing the default
`FunctionCall` node. -/
theorem C3_atom_reference_dispatch_witness :
    atom (defaultCompiler Unit) ()
      ⟨none, some (.varRef ["f"]), some (.vlist [.literal (.int 1)]), none⟩
      = .ok (.funcall (.varRef ["f"]) (.vlist [.literal (.int 1)])) :=
  (C3_atom_reference_dispatch Unit (defaultCompiler Unit) () (.varRef ["f"])
    [.literal (.int 1)]).1 (by simp)

/-- C4: the numeric-literal rule attempts integer parsing of the raw
token first and parses it as a float exactly when integer parsing fails;
`compile_literal` then receives the resolved value — the token's integer
interpretation for integer tokens, the floating-point interpretation
otherwise. -/
theorem C4_number_int_first (C : Type) (comp : ExpressionCompiler C) (ctx : C)
    (tok : String) :
    (∀ n : Int, pyInt tok = some n → NUMBER comp ctx tok = comp.compile_literal ctx (.int n))
    ∧ (pyInt tok = none → NUMBER comp ctx tok = comp.compile_literal ctx (.float tok)) := by
  constructor
  · intro n h
    simp [NUMBER, h]
  · intro h
    simp [NUMBER, h]

/-- C4 witness: `"42"` parses as the integer `42`; `"2.5"` fails integer
parsing and takes the float branch. -/
theorem C4_number_int_first_witness :
    pyInt "42" = some 42
    ∧ NUMBER (defaultCompiler Unit) () "42" = .literal (.int 42)
    ∧ pyInt "2.5" = none
    ∧ NUMBER (defaultCompiler Unit) () "2.5" = .literal (.float "2.5") :=
  ⟨by decide,
   (C4_number_int_first Unit (defaultCompiler Unit) () "42").1 42 (by decide),
   by decide,
   (C4_number_int_first Unit (defaultCompiler Unit) () "2.5").2 (by decide)⟩

/-- C5: parenthesized sub-expressions are structurally transparent — an
atom reduction with a sub-expression payload passes it through unchanged,
so compiling `(x)` yields the identical compiled fragment as compiling
`x`, for every strategy. -/
theorem C5_paren_transparent (C : Type) (comp : ExpressionCompiler C) (ctx : C) :
    (∀ x : Val, atom comp ctx ⟨none, none, none, some x⟩ = .ok x)
    ∧ (∀ t : RTree, run comp ctx (.atomExpr t) = run comp ctx t) := by
  constructor
  · intro x
    rfl
  · intro t
    simp only [run]
    cases run comp ctx t with
    | error e => rfl
    | ok v => rfl

/-- C6: a generic fallback reduction whose trailing operator list is empty
returns the left element of the payload unchanged — for every strategy and
every tag, so no operator is applied and no strategy hook is invoked. -/
theorem C6_empty_chain_passthrough (C : Type) (comp : ExpressionCompiler C) (ctx : C)
    (left : Val) (args : List String) (h : args ≠ []) :
    _default comp ctx (.vlist [left, .vlist []]) args = .ok left := by
  cases args with
  | nil => exact absurd rfl h
  | cons tag rest => simp [_default, pyIndex, pyTruthy, Val.isNode]

/-- C6 witness: a single-term `"binary"` layer collapses to its operand. -/
theorem C6_empty_chain_passthrough_witness :
    _default (defaultCompiler Unit) () (.vlist [.vstr "a", .vlist []]) ["binary"]
      = .ok (.vstr "a") :=
  C6_empty_chain_passthrough Unit (defaultCompiler Unit) () (.vstr "a") ["binary"] (by simp)

/-- C7: the reference rule wraps the ordered identifier segments into a
`VariableReference` whose `reference` attribute is exactly that list, and
whose canonical rendering joins the segments with `"."`; in particular
`a.b.c` renders as `"a.b.c"`. -/
theorem C7_reference_segments (segs : List String) :
    (reference segs).referenceAttr = some segs
    ∧ pyStr (reference segs) = String.intercalate "." segs
    ∧ reference ["a", "b", "c"] = .varRef ["a", "b", "c"]
    ∧ pyStr (reference ["a", "b", "c"]) = "a.b.c" := by
  refine ⟨rfl, ?_, rfl, ?_⟩
  · simp [reference, pyStr]
  · simp [reference, pyStr]
    rfl

/-- C8 counterexample: a generic fallback reduction carrying the
unrecognized tag `"weird"` but an empty trailing operator list does not
fail — it returns the left payload element — so the claim's "exactly two
defect cases" characterization is false as stated. -/
theorem C8_cex_unknown_tag_no_failure :
    _default (defaultCompiler Unit) () (.vlist [.vstr "x", .vlist []]) ["weird"]
      = .ok (.vstr "x") := rfl

/-- C8 (amended): the dispatcher raises its `InternalError`-kind failures
in exactly two defect cases — an atom reduction that carries none of the
three expected payload shapes (then, and only then, `atom` fails, with
`"Unhandled AST"`), and a generic fallback reduction that reaches tag
dispatch (payload not an already-compiled node, trailing payload present
and truthy) while carrying a tag other than `"binary"`/`"unary"` (then,
and only then, `_default` fails with `"Unknown args"`); failures propagate
out of the surrounding reduction unrecovered, with no partial result. -/
theorem C8_internal_failure_characterization (C : Type) (comp : ExpressionCompiler C)
    (ctx : C) :
    (∀ A : AtomAST, (∃ e, atom comp ctx A = .error e)
      ↔ (A.value = none ∧ A.ref = none ∧ A.expr = none))
    ∧ (∀ (ast : Val) (args : List String),
      _default comp ctx ast args = .error (.unknownArgs args)
      ↔ (args ≠ [] ∧ ast.isNode = false
          ∧ (∃ t, pyIndex ast 1 = .ok t ∧ pyTruthy t = true)
          ∧ args.head? ≠ some "binary" ∧ args.head? ≠ some "unary"))
    ∧ (∀ (l : RTree) (ch : RChain) (e : PyErr),
      run comp ctx l = .error e → run comp ctx (.binaryChain l ch) = .error e) := by
  refine ⟨?_, ?_, ?_⟩
  · rintro ⟨v, r, g, x⟩
    cases v with
    | some v0 => simp [atom]
    | none =>
      cases r with
      | some r0 =>
        cases g with
        | none => simp [atom]
        | some a0 =>
          cases ht : pyTruthy a0 with
          | false => simp [atom, ht]
          | true => simp [atom, ht]
      | none =>
        cases x with
        | some x0 => simp [atom]
        | none => simp [atom]
  · intro ast args
    cases args with
    | nil => simp [_default]
    | cons tag rest =>
      cases hn : ast.isNode with
      | true => simp [_default, hn]
      | false =>
        cases hi : pyIndex ast 1 with
        | error e =>
          rcases pyIndex_error_kind ast 1 e hi with rfl | rfl <;>
            simp [_default, hn, hi]
        | ok a1 =>
          cases ht : pyTruthy a1 with
          | false =>
            cases h0 : pyIndex ast 0 with
            | error e0 =>
              rcases pyIndex_error_kind ast 0 e0 h0 with rfl | rfl <;>
                simp [_default, hn, hi, ht, h0]
            | ok v0 => simp [_default, hn, hi, ht, h0]
          | true =>
            by_cases hb : tag = "binary"
            · subst hb
              cases h0 : pyIndex ast 0 with
              | error e0 =>
                rcases pyIndex_error_kind ast 0 e0 h0 with rfl | rfl <;>
                  simp [_default, hn, hi, ht, h0]
              | ok l0 =>
                cases hl : asList a1 with
                | error e1 =>
                  rcases asList_error_kind a1 e1 hl with rfl
                  simp [_default, hn, hi, ht, h0, hl]
                | ok xs => simp [_default, hn, hi, ht, h0, hl]
            · by_cases hu : tag = "unary"
              · subst hu
                cases h0 : pyIndex ast 0 with
                | error e0 =>
                  rcases pyIndex_error_kind ast 0 e0 h0 with rfl | rfl <;>
                    simp [_default, hn, hi, ht, h0]
                | ok o0 => simp [_default, hn, hi, ht, h0]
              · simp [_default, hn, hi, ht, hb, hu]
  · intro l ch e h
    simp only [run, h]

/-- C8 witness: with a strategy that compiles literals to non-node custom
fragments, the tagged reduction over `1` fails with a `TypeError`-kind
failure, and that failure surfaces unchanged through an enclosing binary
chain reduction — no partial result is produced. -/
theorem C8_internal_failure_characterization_witness :
    run customLit () (.tagged (.number "1") "binary") = .error .typeError
    ∧ run customLit () (.binaryChain (.tagged (.number "1") "binary") .nil)
      = .error .typeError := by
  have hpy : pyInt "1" = some 1 := by decide
  have h : run customLit () (.tagged (.number "1") "binary") = .error .typeError := by
    simp [run, NUMBER, hpy, customLit, _default, Val.isNode, pyIndex]
  exact ⟨h, (C8_internal_failure_characterization Unit customLit ()).2.2
    (.tagged (.number "1") "binary") .nil .typeError h⟩

/-- C10: any generic fallback payload that is already a default `ASTNode`
is returned unchanged before the tag is examined — for every strategy, so
neither `compile_operator` nor `compile_unary` runs even under a
`"binary"`/`"unary"` tag; the short circuit keys on the default node
classes only, so a non-`ASTNode` custom fragment instead falls through to
the tuple-shaped dispatch, where indexing it fails. -/
theorem C10_node_short_circuit (C : Type) (comp : ExpressionCompiler C) (ctx : C) :
    (∀ (a : Val) (args : List String), a.isNode = true →
      _default comp ctx a args = .ok a)
    ∧ (∀ (k : Nat) (args : List String), args ≠ [] →
      _default comp ctx (.custom k) args = .error .typeError) := by
  constructor
  · intro a args h
    cases args with
    | nil => rfl
    | cons tag rest => simp [_default, h]
  · intro k args h
    cases args with
    | nil => exact absurd rfl h
    | cons tag rest => simp [_default, pyIndex, Val.isNode]

/-- C10 witness: an already-compiled `BinaryOperator` payload passes a
`"binary"`-tagged fallback unchanged, while a custom fragment under the
same tag falls through and fails on indexing. -/
theorem C10_node_short_circuit_witness :
    _default (defaultCompiler Unit) () (.binaryOp (.vstr "+") (.vstr "a") (.vstr "b"))
      ["binary"] = .ok (.binaryOp (.vstr "+") (.vstr "a") (.vstr "b"))
    ∧ _default (defaultCompiler Unit) () (.custom 0) ["binary"] = .error .typeError :=
  ⟨(C10_node_short_circuit Unit (defaultCompiler Unit) ()).1 _ ["binary"] rfl,
   (C10_node_short_circuit Unit (defaultCompiler Unit) ()).2 0 ["binary"] (by simp)⟩

theorem NUMBER_default_ctx (C : Type) (c1 c2 : C) (tok : String) :
    NUMBER (defaultCompiler C) c1 tok = NUMBER (defaultCompiler C) c2 tok := by
  cases h : pyInt tok <;> simp [NUMBER, h, defaultCompiler]

theorem atom_default_ctx (C : Type) (c1 c2 : C) (A : AtomAST) :
    atom (defaultCompiler C) c1 A = atom (defaultCompiler C) c2 A := by
  rcases A with ⟨v, r, g, x⟩
  cases v <;> cases r <;> cases g <;> cases x <;> simp [atom, defaultCompiler]

theorem default_rule_default_ctx (C : Type) (c1 c2 : C) (ast : Val) (args : List String) :
    _default (defaultCompiler C) c1 ast args = _default (defaultCompiler C) c2 ast args := by
  cases args with
  | nil => rfl
  | cons tag rest => simp [_default, defaultCompiler]

mutual

theorem run_default_ctx (C : Type) (c1 c2 : C) (t : RTree) :
    run (defaultCompiler C) c1 t = run (defaultCompiler C) c2 t := by
  cases t with
  | number tok => simp only [run, NUMBER_default_ctx C c1 c2 tok]
  | stringTok tok => rfl
  | refSegs segs => rfl
  | atomValue v =>
    simp only [run, run_default_ctx C c1 c2 v]
    cases run (defaultCompiler C) c2 v with
    | error e => rfl
    | ok w => exact atom_default_ctx C c1 c2 _
  | atomRefBare r =>
    simp only [run, run_default_ctx C c1 c2 r]
    cases run (defaultCompiler C) c2 r with
    | error e => rfl
    | ok w => exact atom_default_ctx C c1 c2 _
  | atomCall r args =>
    simp only [run, run_default_ctx C c1 c2 r, runList_default_ctx C c1 c2 args]
    cases run (defaultCompiler C) c2 r with
    | error e => rfl
    | ok w =>
      cases runList (defaultCompiler C) c2 args with
      | error e => rfl
      | ok ws => exact atom_default_ctx C c1 c2 _
  | atomExpr e =>
    simp only [run, run_default_ctx C c1 c2 e]
    cases run (defaultCompiler C) c2 e with
    | error e => rfl
    | ok w => exact atom_default_ctx C c1 c2 _
  | binaryChain l ch =>
    simp only [run, run_default_ctx C c1 c2 l, runChain_default_ctx C c1 c2 ch]
    cases run (defaultCompiler C) c2 l with
    | error e => rfl
    | ok lv =>
      cases runChain (defaultCompiler C) c2 ch with
      | error e => rfl
      | ok cv => exact default_rule_default_ctx C c1 c2 _ _
  | unaryApp op operand =>
    simp only [run, run_default_ctx C c1 c2 operand]
    cases run (defaultCompiler C) c2 operand with
    | error e => rfl
    | ok v => exact default_rule_default_ctx C c1 c2 _ _
  | pass child =>
    simp only [run, run_default_ctx C c1 c2 child]
    cases run (defaultCompiler C) c2 child with
    | error e => rfl
    | ok v => exact default_rule_default_ctx C c1 c2 _ _
  | tagged child tag =>
    simp only [run, run_default_ctx C c1 c2 child]
    cases run (defaultCompiler C) c2 child with
    | error e => rfl
    | ok v => exact default_rule_default_ctx C c1 c2 _ _

theorem runList_default_ctx (C : Type) (c1 c2 : C) (xs : RList) :
    runList (defaultCompiler C) c1 xs = runList (defaultCompiler C) c2 xs := by
  cases xs with
  | nil => rfl
  | cons h t =>
    simp only [runList, run_default_ctx C c1 c2 h, runList_default_ctx C c1 c2 t]

theorem runChain_default_ctx (C : Type) (c1 c2 : C) (ch : RChain) :
    runChain (defaultCompiler C) c1 ch = runChain (defaultCompiler C) c2 ch := by
  cases ch with
  | nil => rfl
  | cons op r t =>
    simp only [runChain, run_default_ctx C c1 c2 r, runChain_default_ctx C c1 c2 t]

end

/-- C9: default compilation is deterministic and context-insensitive —
compiling the same parsed text with the default strategy under any two
fresh, independent contexts yields structurally equal compiled trees
(equality in the embedding is structural equality of the AST values). -/
theorem C9_default_compile_deterministic (C : Type) (c1 c2 : C) (t : RTree) :
    compile (defaultCompiler C) c1 none t = compile (defaultCompiler C) c2 none t :=
  run_default_ctx C c1 c2 t

end Cubes
